import Mathlib

/-!
Shallow embedding of `seq2seq/dataset/utils.py` (pytorch-seq2seq).

Python strings are modelled as `List Char`.  Files are modelled as the list
of their lines.  A raised exception is modelled with `Except`: the `.error`
payload is the content the code logs at error severity before re-raising
(for `prepare_data` the offending raw line, for `prepare_data_from_list`
the `ValueError` message).  The Python `set` built by `read_vocabulary` is
modelled as a duplicate-free list in insertion order; its cardinality is
the list's length.  `map(tokenize_func, [src, dst])` is embedded as the
materialized pair of token lists (the documented contract of the module:
tokenize both sides, then filter by token-sequence length).
-/

/-- A Python string: a finite sequence of characters. -/
abbrev PyStr := List Char

/-- The whitespace characters removed by Python's `str.strip()`
(ASCII fragment: space, tab, newline, carriage return, vertical tab,
form feed). -/
def isPySpace (c : Char) : Bool :=
  c = ' ' || c = '\t' || c = '\n' || c = '\x0d' || c = '\x0b' || c = '\x0c'

/-- Python `str.strip()`: drop leading and trailing whitespace. -/
def pyStrip (s : PyStr) : PyStr :=
  ((s.dropWhile isPySpace).reverse.dropWhile isPySpace).reverse

/-- Python `str.split(sep)` for a one-character separator `sep`:
every maximal run between separator occurrences is returned, empty runs
included; the empty string yields `[""]`. -/
def splitOnChar (sep : Char) : PyStr → List PyStr
  | [] => [[]]
  | c :: cs =>
    let r := splitOnChar sep cs
    if c = sep then [] :: r
    else
      match r with
      | [] => [[c]]
      | t :: ts => (c :: t) :: ts

/-- `space_tokenize` (utils.py line 30): `text.split(" ")`. -/
def space_tokenize (text : PyStr) : List PyStr :=
  splitOnChar ' ' text

/-- Joining a token list with a one-character separator, the inverse
direction of `splitOnChar` (Python `sep.join(tokens)`). -/
def joinSep (sep : Char) : List PyStr → PyStr
  | [] => []
  | [t] => t
  | t :: ts => t ++ sep :: joinSep sep ts

/-- `filter_pair` (utils.py line 17):
`len(pair[0]) <= src_max_len and len(pair[1]) <= tgt_max_len`. -/
def filter_pair {α β : Type} (pair : List α × List β)
    (src_max_len tgt_max_len : Nat) : Bool :=
  decide (pair.1.length ≤ src_max_len) && decide (pair.2.length ≤ tgt_max_len)

/-- One iteration of `prepare_data`'s loop body up to the filter:
strip the line, split on tabs, and require exactly two fields
(`src, dst = line.strip().split("\t")`); on success tokenize both
fields.  `none` is the `ValueError` of a failed unpacking. -/
def parseLine (tokenize_func : PyStr → List PyStr) (line : PyStr) :
    Option (List PyStr × List PyStr) :=
  match splitOnChar '\t' (pyStrip line) with
  | [src, dst] => some (tokenize_func src, tokenize_func dst)
  | _ => none

/-- `prepare_data` (utils.py lines 33-63) over the file's lines: each line
is parsed by `parseLine`; a parse failure is logged and re-raised
(`.error` with the offending raw line, nothing returned); pairs passing
`filter_pair` are appended in order. -/
def prepare_data (lines : List PyStr) (src_max_len tgt_max_len : Nat)
    (tokenize_func : PyStr → List PyStr) :
    Except PyStr (List (List PyStr × List PyStr)) :=
  match lines with
  | [] => .ok []
  | l :: ls =>
    match parseLine tokenize_func l with
    | none => .error l
    | some p =>
      match prepare_data ls src_max_len tgt_max_len tokenize_func with
      | .error e => .error e
      | .ok rest =>
        .ok (if filter_pair p src_max_len tgt_max_len then p :: rest else rest)

/-- The `ValueError` message raised by `prepare_data_from_list` on a
length mismatch (utils.py line 82). -/
def mismatchMsg : PyStr :=
  String.toList
    "source sequence list and target sequence list has different number of entries."

/-- `prepare_data_from_list` (utils.py lines 66-97): fail when the two
lists have different lengths, otherwise tokenize each aligned pair and
keep those passing `filter_pair`, in order. -/
def prepare_data_from_list (src_list tgt_list : List PyStr)
    (src_max_len tgt_max_len : Nat) (tokenize_func : PyStr → List PyStr) :
    Except PyStr (List (List PyStr × List PyStr)) :=
  if src_list.length = tgt_list.length then
    .ok (((src_list.zip tgt_list).map
            (fun st => (tokenize_func st.1, tokenize_func st.2))).filter
          (fun p => filter_pair p src_max_len tgt_max_len))
  else
    .error mismatchMsg

/-- Python `set.add` on the insertion-ordered duplicate-free list model:
a present element is a no-op, a new element goes to the end. -/
def setAdd (vocab : List PyStr) (s : PyStr) : List PyStr :=
  if s ∈ vocab then vocab else vocab ++ [s]

/-- The loop of `read_vocabulary` (utils.py lines 112-121): before each
line, stop if the set has already reached `max_num_vocab` elements;
otherwise add the stripped line. -/
def readVocabAux (max_num_vocab : Nat) (vocab : List PyStr) :
    List PyStr → List PyStr
  | [] => vocab
  | l :: ls =>
    if max_num_vocab ≤ vocab.length then vocab
    else readVocabAux max_num_vocab (setAdd vocab (pyStrip l)) ls

/-- `read_vocabulary` (utils.py lines 99-123) over the file's lines. -/
def read_vocabulary (lines : List PyStr) (max_num_vocab : Nat) : List PyStr :=
  readVocabAux max_num_vocab [] lines

/-- The distinct stripped lines of a file, in first-occurrence order:
what `read_vocabulary` would accumulate with no cap. -/
def stripDistincts (lines : List PyStr) : List PyStr :=
  lines.foldl (fun v l => setAdd v (pyStrip l)) []

lemma splitOnChar_ne_nil (sep : Char) (s : PyStr) : splitOnChar sep s ≠ [] := by
  cases s with
  | nil => simp [splitOnChar]
  | cons c cs =>
    simp only [splitOnChar]
    by_cases h : c = sep
    · simp [h]
    · simp only [h, if_false]
      cases splitOnChar sep cs <;> simp

lemma joinSep_splitOnChar (sep : Char) (s : PyStr) :
    joinSep sep (splitOnChar sep s) = s := by
  induction s with
  | nil => rfl
  | cons c cs ih =>
    simp only [splitOnChar]
    by_cases h : c = sep
    · subst h
      simp only [if_pos rfl]
      obtain ⟨t, ts, hts⟩ := List.exists_cons_of_ne_nil (splitOnChar_ne_nil c cs)
      rw [hts] at ih ⊢
      simpa [joinSep] using ih
    · simp only [h, if_false]
      obtain ⟨t, ts, hts⟩ := List.exists_cons_of_ne_nil (splitOnChar_ne_nil sep cs)
      rw [hts] at ih ⊢
      cases ts with
      | nil => simpa [joinSep] using ih
      | cons t' ts' => simpa [joinSep] using ih

lemma splitOnChar_not_mem (sep : Char) (s : PyStr) :
    ∀ t ∈ splitOnChar sep s, sep ∉ t := by
  induction s with
  | nil => intro t ht; simp [splitOnChar] at ht; simp [ht]
  | cons c cs ih =>
    intro t ht
    simp only [splitOnChar] at ht
    by_cases h : c = sep
    · subst h
      rw [if_pos rfl] at ht
      simp only [List.mem_cons] at ht
      rcases ht with h1 | h2
      · simp [h1]
      · exact ih t h2
    · simp only [h, if_false] at ht
      obtain ⟨u, us, hus⟩ := List.exists_cons_of_ne_nil (splitOnChar_ne_nil sep cs)
      rw [hus] at ht
      simp only [List.mem_cons] at ht
      rcases ht with h1 | h2
      · subst h1
        intro hmem
        rcases List.mem_cons.mp hmem with h3 | h4
        · exact h h3.symm
        · exact ih u (by rw [hus]; exact List.mem_cons_self u us) h4
      · exact ih t (by rw [hus]; exact List.mem_cons_of_mem u h2)

lemma setAdd_extends (v : List PyStr) (s : PyStr) : v <+: setAdd v s := by
  unfold setAdd
  by_cases h : s ∈ v
  · simp [h]
  · exact ⟨[s], by simp [h]⟩

lemma setAdd_length_le (v : List PyStr) (s : PyStr) :
    (setAdd v s).length ≤ v.length + 1 := by
  unfold setAdd
  by_cases h : s ∈ v <;> simp [h]

lemma setAdd_nodup {v : List PyStr} (hv : v.Nodup) (s : PyStr) :
    (setAdd v s).Nodup := by
  unfold setAdd
  by_cases h : s ∈ v
  · simpa [h]
  · rw [if_neg h]
    simpa [List.nodup_append, h] using hv

lemma foldl_setAdd_extends (lines : List PyStr) (v : List PyStr) :
    v <+: lines.foldl (fun a l => setAdd a (pyStrip l)) v := by
  induction lines generalizing v with
  | nil => exact List.prefix_refl v
  | cons l ls ih =>
    exact (setAdd_extends v (pyStrip l)).trans (ih (setAdd v (pyStrip l)))

lemma foldl_setAdd_nodup (lines : List PyStr) {v : List PyStr} (hv : v.Nodup) :
    (lines.foldl (fun a l => setAdd a (pyStrip l)) v).Nodup := by
  induction lines generalizing v with
  | nil => exact hv
  | cons l ls ih => exact ih (setAdd_nodup hv (pyStrip l))

lemma readVocabAux_eq_take (max_num_vocab : Nat) (lines : List PyStr)
    (v : List PyStr) (hv : v.length ≤ max_num_vocab) :
    readVocabAux max_num_vocab v lines
      = (lines.foldl (fun a l => setAdd a (pyStrip l)) v).take max_num_vocab := by
  induction lines generalizing v with
  | nil =>
    simp only [readVocabAux, List.foldl_nil]
    exact (List.take_of_length_le hv).symm
  | cons l ls ih =>
    simp only [readVocabAux, List.foldl_cons]
    by_cases h : max_num_vocab ≤ v.length
    · rw [if_pos h]
      have hlen : v.length = max_num_vocab := Nat.le_antisymm hv h
      obtain ⟨t, ht⟩ :=
        foldl_setAdd_extends ls (setAdd v (pyStrip l))
      obtain ⟨u, hu⟩ := setAdd_extends v (pyStrip l)
      rw [← ht, ← hu, List.append_assoc]
      exact (List.take_left' hlen).symm
    · rw [if_neg h]
      push_neg at h
      exact ih (setAdd v (pyStrip l)) ((setAdd_length_le v (pyStrip l)).trans h)

lemma read_vocabulary_eq_take (lines : List PyStr) (max_num_vocab : Nat) :
    read_vocabulary lines max_num_vocab
      = (stripDistincts lines).take max_num_vocab :=
  readVocabAux_eq_take max_num_vocab lines [] (Nat.zero_le _)

lemma stripDistincts_nodup (lines : List PyStr) : (stripDistincts lines).Nodup :=
  foldl_setAdd_nodup lines List.nodup_nil

lemma stripDistincts_append (lines rest : List PyStr) :
    stripDistincts (lines ++ rest)
      = rest.foldl (fun a l => setAdd a (pyStrip l)) (stripDistincts lines) := by
  simp only [stripDistincts, List.foldl_append]

lemma filter_pair_true_iff {α β : Type} (pair : List α × List β)
    (src_max_len tgt_max_len : Nat) :
    filter_pair pair src_max_len tgt_max_len = true ↔
      pair.1.length ≤ src_max_len ∧ pair.2.length ≤ tgt_max_len := by
  simp [filter_pair]

lemma prepare_data_ok_eq (lines : List PyStr) (src_max_len tgt_max_len : Nat)
    (tok : PyStr → List PyStr) (pairs : List (List PyStr × List PyStr))
    (h : prepare_data lines src_max_len tgt_max_len tok = .ok pairs) :
    pairs = (lines.filterMap (parseLine tok)).filter
      (fun p => filter_pair p src_max_len tgt_max_len) := by
  induction lines generalizing pairs with
  | nil =>
    simp only [prepare_data, Except.ok.injEq] at h
    simp [← h]
  | cons l ls ih =>
    simp only [prepare_data] at h
    cases hp : parseLine tok l with
    | none => rw [hp] at h; cases h
    | some p =>
      rw [hp] at h
      cases hr : prepare_data ls src_max_len tgt_max_len tok with
      | error e => rw [hr] at h; cases h
      | ok rest =>
        rw [hr] at h
        simp only [Except.ok.injEq] at h
        simp only [List.filterMap_cons, hp, List.filter_cons, ← ih rest hr, ← h]

lemma prepare_data_error_eq (pre : List PyStr) (bad : PyStr)
    (rest : List PyStr) (src_max_len tgt_max_len : Nat)
    (tok : PyStr → List PyStr)
    (hpre : ∀ l ∈ pre, (parseLine tok l).isSome = true)
    (hbad : parseLine tok bad = none) :
    prepare_data (pre ++ bad :: rest) src_max_len tgt_max_len tok
      = .error bad := by
  induction pre with
  | nil => simp [prepare_data, hbad]
  | cons l ls ih =>
    obtain ⟨p, hp⟩ :=
      Option.isSome_iff_exists.mp (hpre l (List.mem_cons_self l ls))
    have ih' := ih (fun x hx => hpre x (List.mem_cons_of_mem l hx))
    simp only [List.cons_append, prepare_data, List.append_eq, hp, ih']

/-- C1: for every input file (list of lines) and non-negative caps, a
sentence pair appears in `prepare_data`'s output iff it arises from some
line of the file and the token sequences obtained with `tokenize_func` on
its source and target fields have lengths at most `src_max_len` and
`tgt_max_len`; in particular every returned pair satisfies both caps. -/
theorem prepare_data_mem_iff (lines : List PyStr)
    (src_max_len tgt_max_len : Nat) (tok : PyStr → List PyStr)
    (pairs : List (List PyStr × List PyStr))
    (h : prepare_data lines src_max_len tgt_max_len tok = .ok pairs)
    (p : List PyStr × List PyStr) :
    (p ∈ pairs ↔
      p ∈ lines.filterMap (parseLine tok) ∧
        p.1.length ≤ src_max_len ∧ p.2.length ≤ tgt_max_len) ∧
    ∀ q ∈ pairs, q.1.length ≤ src_max_len ∧ q.2.length ≤ tgt_max_len := by
  rw [prepare_data_ok_eq lines src_max_len tgt_max_len tok pairs h]
  constructor
  · rw [List.mem_filter, filter_pair_true_iff]
  · intro q hq
    exact (filter_pair_true_iff q src_max_len tgt_max_len).mp
      (List.mem_filter.mp hq).2

/-- C1 witness: a concrete two-line file at caps (2, 1); the first line
survives, the second is filtered out, and the membership equivalence holds
at the surviving pair. -/
theorem prepare_data_mem_iff_witness :
    (([['a'], ['b']], [['c']]) ∈ [(([['a'], ['b']], [['c']]) :
          List PyStr × List PyStr)] ↔
      ([['a'], ['b']], [['c']]) ∈
          (["a b\tc".toList, "x\ty y y".toList].filterMap
            (parseLine space_tokenize)) ∧
        List.length [['a'], ['b']] ≤ 2 ∧ List.length [['c']] ≤ 1) :=
  (prepare_data_mem_iff ["a b\tc".toList, "x\ty y y".toList] 2 1
    space_tokenize [([['a'], ['b']], [['c']])] rfl
    ([['a'], ['b']], [['c']])).1

/-- C2: when the file has a line that does not split into exactly two
tab-separated fields (all earlier lines being well formed), `prepare_data`
reports the offending raw line and propagates the failure: the result is
the error naming that line, no pair list is returned, and the result does
not depend on the lines after the malformed one. -/
theorem prepare_data_malformed_line (pre : List PyStr) (bad : PyStr)
    (src_max_len tgt_max_len : Nat) (tok : PyStr → List PyStr)
    (hpre : ∀ l ∈ pre, (parseLine tok l).isSome = true)
    (hbad : parseLine tok bad = none) :
    ∀ rest : List PyStr,
      prepare_data (pre ++ bad :: rest) src_max_len tgt_max_len tok
        = .error bad :=
  fun rest => prepare_data_error_eq pre bad rest src_max_len tgt_max_len
    tok hpre hbad

/-- C2 witness: a concrete file whose second line has no tab; the load
fails with that line even though a well-formed line follows. -/
theorem prepare_data_malformed_line_witness :
    prepare_data (["a\tb".toList] ++ "notab".toList :: ["x\ty".toList])
        5 5 space_tokenize = .error ("notab".toList) :=
  prepare_data_malformed_line ["a\tb".toList] ("notab".toList) 5 5
    space_tokenize (by decide) (by decide) ["x\ty".toList]

/-- C3: `prepare_data_from_list` on lists of unequal length fails with the
length-mismatch error, uniformly in the tokenizer and caps (so before any
tokenizing or filtering), and produces no output list. -/
theorem prepare_data_from_list_mismatch (src_list tgt_list : List PyStr)
    (src_max_len tgt_max_len : Nat) (tok : PyStr → List PyStr)
    (h : src_list.length ≠ tgt_list.length) :
    prepare_data_from_list src_list tgt_list src_max_len tgt_max_len tok
      = .error mismatchMsg := by
  simp [prepare_data_from_list, h]

/-- C3 witness: a one-element source list against an empty target list. -/
theorem prepare_data_from_list_mismatch_witness :
    prepare_data_from_list ["a".toList] [] 3 3 space_tokenize
      = .error mismatchMsg :=
  prepare_data_from_list_mismatch ["a".toList] [] 3 3 space_tokenize
    (by decide)

/-- C4: `read_vocabulary` never returns more than `max_num_vocab`
elements, whatever the file's lines are. -/
theorem read_vocabulary_card_le (lines : List PyStr) (max_num_vocab : Nat) :
    (read_vocabulary lines max_num_vocab).length ≤ max_num_vocab := by
  rw [read_vocabulary_eq_take, List.length_take]
  exact Nat.min_le_left _ _

/-- C5: when the file's lines contain at least `max_num_vocab` distinct
stripped tokens, `read_vocabulary` stops once the set reaches
`max_num_vocab` entries — appending any further lines to the file leaves
the result unchanged — and the result is exactly the first
`max_num_vocab` distinct stripped tokens in file order. -/
theorem read_vocabulary_early_stop (lines : List PyStr)
    (max_num_vocab : Nat)
    (h : max_num_vocab ≤ (stripDistincts lines).length) :
    (∀ rest, read_vocabulary (lines ++ rest) max_num_vocab
        = read_vocabulary lines max_num_vocab) ∧
    read_vocabulary lines max_num_vocab
        = (stripDistincts lines).take max_num_vocab ∧
    (read_vocabulary lines max_num_vocab).length = max_num_vocab := by
  refine ⟨?_, read_vocabulary_eq_take lines max_num_vocab, ?_⟩
  · intro rest
    rw [read_vocabulary_eq_take, read_vocabulary_eq_take,
      stripDistincts_append]
    obtain ⟨t, ht⟩ := foldl_setAdd_extends rest (stripDistincts lines)
    rw [← ht, List.take_append_of_le_length h]
  · rw [read_vocabulary_eq_take, List.length_take]
    exact Nat.min_eq_left h

/-- C5 witness: three distinct lines at cap 2; the fourth line is never
reached and the result is the first two tokens in order. -/
theorem read_vocabulary_early_stop_witness :
    read_vocabulary (["a".toList, "b".toList, "c".toList] ++ ["d".toList]) 2
        = read_vocabulary ["a".toList, "b".toList, "c".toList] 2 ∧
    read_vocabulary ["a".toList, "b".toList, "c".toList] 2
        = (stripDistincts ["a".toList, "b".toList, "c".toList]).take 2 ∧
    (read_vocabulary ["a".toList, "b".toList, "c".toList] 2).length = 2 :=
  ⟨(read_vocabulary_early_stop ["a".toList, "b".toList, "c".toList] 2
      (by decide)).1 ["d".toList],
    (read_vocabulary_early_stop ["a".toList, "b".toList, "c".toList] 2
      (by decide)).2⟩

/-- C6: `filter_pair` returns true iff the first component's length is at
most `src_max_len` and the second component's length is at most
`tgt_max_len`; as a Lean function it is total and pure by construction. -/
theorem filter_pair_spec {α β : Type} (pair : List α × List β)
    (src_max_len tgt_max_len : Nat) :
    filter_pair pair src_max_len tgt_max_len = true ↔
      pair.1.length ≤ src_max_len ∧ pair.2.length ≤ tgt_max_len :=
  filter_pair_true_iff pair src_max_len tgt_max_len

/-- C7: joining `space_tokenize`'s output with a single space reconstructs
the input exactly, and no produced token contains a space: the tokenizer
splits on every single-space occurrence and on nothing else, preserving
empty tokens from consecutive, leading, or trailing spaces. -/
theorem space_tokenize_roundtrip (s : PyStr) :
    joinSep ' ' (space_tokenize s) = s ∧
      ∀ t ∈ space_tokenize s, ' ' ∉ t :=
  ⟨joinSep_splitOnChar ' ' s, splitOnChar_not_mem ' ' s⟩

/-- C8: the set returned by `read_vocabulary` holds each distinct stripped
line at most once, and its cardinality is the number of distinct stripped
lines capped at `max_num_vocab` — never the raw number of lines read. -/
theorem read_vocabulary_distinct (lines : List PyStr)
    (max_num_vocab : Nat) :
    (read_vocabulary lines max_num_vocab).Nodup ∧
    (read_vocabulary lines max_num_vocab).length
      = min (stripDistincts lines).length max_num_vocab := by
  rw [read_vocabulary_eq_take]
  exact ⟨List.Nodup.sublist (List.take_sublist _ _)
      (stripDistincts_nodup lines),
    by rw [List.length_take, Nat.min_comm]⟩

/-- C9: the whitespace tokenizer on the empty string returns the
one-element list holding the empty string, so an empty field is length
filtered as token count 1, never 0. -/
theorem space_tokenize_empty :
    space_tokenize [] = [[]] ∧ (space_tokenize []).length = 1 ∧
    ∀ (ts : List PyStr) (src_max_len tgt_max_len : Nat),
      (filter_pair (space_tokenize [], ts) src_max_len tgt_max_len = true ↔
        1 ≤ src_max_len ∧ ts.length ≤ tgt_max_len) := by
  refine ⟨rfl, rfl, fun ts src_max_len tgt_max_len => ?_⟩
  rw [filter_pair_true_iff]
  simp [space_tokenize, splitOnChar]

/-- C10: with `max_num_vocab = 0`, `read_vocabulary` returns the empty
set for every file, the same result as on the empty file: the cap check
fires before the first line is processed. -/
theorem read_vocabulary_zero_cap (lines : List PyStr) :
    read_vocabulary lines 0 = [] ∧
      read_vocabulary lines 0 = read_vocabulary [] 0 := by
  rw [read_vocabulary_eq_take]
  exact ⟨List.take_zero _, List.take_zero _⟩

